import Mathlib

/-
Verification of src/xbrl_image_parser.py against its specification.

The embedding models a pandas DataFrame of OCR word records as a list of
Word structures.  Machine floats carrying OCR numbers are modelled as
rationals; a NaN cell is modelled as none.  Functions that mutate the
DataFrame passed by the caller return the updated table as the first
component of their result; functions that can raise a Python exception
return Except, with the error string naming the exception class.
-/

deriving instance DecidableEq for Except

namespace XbrlImg

/-- Test for the ASCII digits 0-9, as used by the regexes of the source. -/
def isDigitC (c : Char) : Bool := decide ('0' ≤ c) && decide (c ≤ '9')

/-- Test for the ASCII range a-z, the character class [a-z] of the source. -/
def isLowerAZ (c : Char) : Bool := decide ('a' ≤ c) && decide (c ≤ 'z')

/-- Numeric value of a digit string, most significant digit first. -/
def natOfDigits (ds : List Char) : Nat :=
  ds.foldl (fun n c => 10 * n + (c.toNat - '0'.toNat)) 0

/-- Model of pandas.to_numeric on one already-cleaned string, restricted to
the shapes this development exercises: a optionally signed decimal literal
(digits, optionally followed by a point and more digits) parses to a
rational; every other string is NaN, modelled as none. -/
def parseUnsigned (s : List Char) : Option ℚ :=
  let intPart := s.takeWhile isDigitC
  let rest := s.dropWhile isDigitC
  match rest with
  | [] => if intPart.isEmpty then none else some (natOfDigits intPart)
  | '.' :: fr =>
    let fracPart := fr.takeWhile isDigitC
    let rest2 := fr.dropWhile isDigitC
    if rest2.isEmpty && !(intPart.isEmpty && fracPart.isEmpty) then
      some ((natOfDigits intPart : ℚ) + (natOfDigits fracPart : ℚ) / (10 : ℚ) ^ fracPart.length)
    else none
  | _ => none

/-- Sign handling of the numeric parser: a leading minus negates the value,
a leading plus is ignored. -/
def parseNumeric (s : List Char) : Option ℚ :=
  match s with
  | '-' :: r => (parseUnsigned r).map (fun q => -q)
  | '+' :: r => parseUnsigned r
  | r => parseUnsigned r

/-- Python str.lstrip(chars): remove every leading character that belongs to
the given character set. -/
def pyLstrip (cs : List Char) (s : List Char) : List Char :=
  s.dropWhile (fun c => cs.contains c)

/-- Python str.rstrip(chars): remove every trailing character that belongs to
the given character set. -/
def pyRstrip (cs : List Char) (s : List Char) : List Char :=
  ((s.reverse).dropWhile (fun c => cs.contains c)).reverse

/-- Python str.strip(chars): strip the character set from both ends. -/
def pyStrip (cs : List Char) (s : List Char) : List Char :=
  pyRstrip cs (pyLstrip cs s)

/-- Embedding of convert_to_numeric (src/xbrl_image_parser.py lines 68-77)
applied to one cell: str(x).replace(",", "").strip("(").strip(")") followed
by pandas.to_numeric with errors="coerce", so that a non-numeric cleaned
string becomes NaN (none) instead of raising. -/
def convert_to_numeric (s : List Char) : Option ℚ :=
  parseNumeric (pyStrip [')'] (pyStrip ['('] (s.filter (fun c => c != ','))))

/-- One OCR word record (one row of the tabulated Tesseract output, after the
geometric enrichment that attaches right and bottom edges and after the
numerical column has been attached).  The keyword_found field models the
DataFrame column of that name, which is absent (none) until some function
writes it. -/
structure Word where
  csv_num : Nat
  level : Nat
  block_num : Nat
  par_num : Nat
  line_num : Nat
  word_num : Nat
  left : Int
  top : Int
  right : Int
  bottom : Int
  text : Option (List Char)
  conf : ℚ
  numerical : Option ℚ
  keyword_found : Option Bool
deriving DecidableEq

/-- Python str(x) applied to a possibly-NaN text cell: NaN prints as "nan". -/
def strText : Option (List Char) → List Char
  | some t => t
  | none => "nan".toList

/-- Test performed by re.match with pattern [£$]|million|thousand|£m|£k|$m|$k
on str(x).  The alternatives £m and £k are subsumed by the character class
[£$]; in the alternatives $m and $k the dollar sign is the regex
end-of-string anchor, so neither can ever match.  Hence the test holds
exactly when the text starts with £ or $ or with million or thousand. -/
def matchesUnits (t : List Char) : Bool :=
  (match t with
   | c :: _ => c == '£' || c == '$'
   | [] => false)
  || "million".toList.isPrefixOf t || "thousand".toList.isPrefixOf t

/-- Insertion step for a sort in descending key order.  The sort below
processes the list from the right, so the element being inserted precedes the
already-sorted elements in the original list; placing it in front of the
first less-or-equal key therefore keeps the sort stable. -/
def insertDescBy {α β : Type} [LinearOrder β] (key : α → β) (x : α) : List α → List α
  | [] => [x]
  | y :: ys => if key y ≤ key x then x :: y :: ys else y :: insertDescBy key x ys

/-- Stable insertion sort, descending key order.  pandas sort_values leaves
the relative order of equal keys unspecified; the theorems below only use
this order where a strict comparison makes every order agree. -/
def sortDescBy {α β : Type} [LinearOrder β] (key : α → β) : List α → List α
  | [] => []
  | x :: xs => insertDescBy key x (sortDescBy key xs)

/-- Insertion step for a sort in ascending key order, stable for the same
reason as the descending variant. -/
def insertAscBy {α β : Type} [LinearOrder β] (key : α → β) (x : α) : List α → List α
  | [] => [x]
  | y :: ys => if key x ≤ key y then x :: y :: ys else y :: insertAscBy key x ys

/-- Stable insertion sort, ascending key order. -/
def sortAscBy {α β : Type} [LinearOrder β] (key : α → β) : List α → List α
  | [] => []
  | x :: xs => insertAscBy key x (sortAscBy key xs)

/-- Worker of firstOccs: drop every value already seen. -/
def firstOccsAux {α : Type} [DecidableEq α] (seen : List α) : List α → List α
  | [] => []
  | x :: xs => if x ∈ seen then firstOccsAux seen xs
               else x :: firstOccsAux (x :: seen) xs

/-- Distinct values of a list, keeping the first occurrence of each. -/
def firstOccs {α : Type} [DecidableEq α] (l : List α) : List α := firstOccsAux [] l

/-- Occurrence count of a value in a list.  A fixed wrapper around List.count
so that every statement of this development counts with one and the same
equality instance. -/
def cnt {α : Type} [DecidableEq α] (a : α) (l : List α) : Nat := l.count a

/-- Occurrence counts of the distinct values of a list, the outcome of a
pandas groupby/count. -/
def tally {α : Type} [DecidableEq α] (vals : List α) : List (α × Nat) :=
  (firstOccs vals).map (fun v => (v, cnt v vals))

/-- Error string of the KeyError raised by a .loc lookup on an empty frame. -/
def keyErr : String := "KeyError"

/-- Error string of an out-of-bounds positional access. -/
def idxErr : String := "IndexError"

/-- Error string of calling a string method on a NaN float. -/
def attrErr : String := "AttributeError"

/-- Mutation performed by line 105 of the source: the keyword_found column is
written onto the table the caller passed in. -/
def setUnitsFlag (w : Word) : Word :=
  { w with keyword_found := some (matchesUnits (strText w.text)) }

/-- Texts of the words whose text matches the currency vocabulary. -/
def unitMatchTexts (subset : List Word) : List (List Char) :=
  (subset.filter (fun w => matchesUnits (strText w.text))).map (fun w => strText w.text)

/-- Tally-and-pick step of determine_units_count: group the matching texts,
count them, sort by count descending and take row 0.  On an empty tally the
lookup units.loc[0, "text"] raises a KeyError. -/
def unitsCore (texts : List (List Char)) : Except String (List Char × Nat) :=
  match sortDescBy (fun p => p.2) (tally texts) with
  | [] => Except.error keyErr
  | p :: _ => Except.ok p

/-- Embedding of determine_units_count (src/xbrl_image_parser.py lines
96-120).  The first component is the caller-visible table after the call:
the source writes a keyword_found column into it before filtering. -/
def determine_units_count (subset : List Word) :
    List Word × Except String (List Char × Nat) :=
  let subset' := subset.map setUnitsFlag
  (subset',
   unitsCore ((subset'.filter (fun w => w.keyword_found == some true)).map
     (fun w => strText w.text)))

/-- In-range test of determine_years_count: the numerical value lies in the
inclusive window [2000, 2050].  A NaN value compares false. -/
def inRangeYear (w : Word) : Bool :=
  match w.numerical with
  | some q => decide (2000 ≤ q) && decide (q ≤ 2050)
  | none => false

/-- Mutation performed by line 131 of the source. -/
def setYearsFlag (w : Word) : Word :=
  { w with keyword_found := some (inRangeYear w) }

/-- Numerical values of the table that lie in the year window, in table
order. -/
def yearVals (subset : List Word) : List ℚ :=
  subset.filterMap (fun w => if inRangeYear w then w.numerical else none)

/-- Result of determine_years_count when no exception occurs: either the two
candidate years (most frequent first) or the failure value 0. -/
inductive YearsResult where
  | pair (y0 y1 : ℚ)
  | zero
deriving DecidableEq

/-- Two most frequent values: tally, sort by count descending, slice [0:2]. -/
def topTwoVals (vals : List ℚ) : List ℚ :=
  ((sortDescBy (fun p => p.2) (tally vals)).map (fun p => p.1)).take 2

/-- Decision step of determine_years_count: with two candidates, return them
when the count-ordered difference candidates[0] - candidates[1] equals 1 and
the value 0 otherwise; with fewer than two candidates the subtraction is an
out-of-bounds index into a numpy array and raises. -/
def yearsCore (vals : List ℚ) : Except String YearsResult :=
  match topTwoVals vals with
  | [c0, c1] =>
    Except.ok (if c0 - c1 = 1 then YearsResult.pair c0 c1 else YearsResult.zero)
  | _ => Except.error idxErr

/-- Embedding of determine_years_count (src/xbrl_image_parser.py lines
123-146).  The first component is the caller-visible table after the call. -/
def determine_years_count (subset : List Word) :
    List Word × Except String YearsResult :=
  let subset' := subset.map setYearsFlag
  (subset',
   yearsCore ((subset'.filter (fun w => w.keyword_found == some true)).filterMap
     (fun w => w.numerical)))

/-- Two most frequent in-window years of a table. -/
def topTwoYears (subset : List Word) : List ℚ := topTwoVals (yearVals subset)

/-- Grouping key of a word record: (csv_num, block_num, par_num, line_num). -/
abbrev LineKey := Nat × Nat × Nat × Nat

/-- Grouping key of a word record. -/
def keyOf (w : Word) : LineKey := (w.csv_num, w.block_num, w.par_num, w.line_num)

/-- Character set of the strip("nan ") calls of the source: Python strip
removes every leading and trailing character that belongs to the set, here
the letters n and a and the space. -/
def nanStripSet : List Char := ['n', 'a', ' ']

/-- Python " ".join. -/
def joinSpace : List (List Char) → List Char
  | [] => []
  | [t] => t
  | t :: rest => t ++ ' ' :: joinSpace rest

/-- Keys in pandas groupby order: sorted lexicographically on the four
components, realized as a stable multi-pass sort from the least significant
component to the most significant one. -/
def sortKeys (ks : List LineKey) : List LineKey :=
  sortAscBy (fun k => k.1)
    (sortAscBy (fun k => k.2.1)
      (sortAscBy (fun k => k.2.2.1)
        (sortAscBy (fun k => k.2.2.2) ks)))

/-- Embedding of agg_level (src/xbrl_image_parser.py lines 211-233) at the
default level 4: one row per key of the rows with level at least 4, in
groupby order, whose text is the str of the member texts joined with spaces
and then Python-stripped of the character set "nan ". -/
def agg_level (dat : List Word) : List (LineKey × List Char) :=
  let rows := dat.filter (fun w => decide (4 ≤ w.level))
  (sortKeys (firstOccs (rows.map keyOf))).map (fun k =>
    (k, pyStrip nanStripSet
          (joinSpace ((rows.filter (fun w => keyOf w == k)).map
            (fun w => strText w.text)))))

/-- Two-line windows: each aggregated line text concatenated with the text of
the following aggregated line (pandas shift(-1)); the last line receives NaN
(none). -/
def windowize : List (LineKey × List Char) → List (LineKey × Option (List Char))
  | [] => []
  | [(k, _)] => [(k, none)]
  | (k, t) :: (k', t') :: rest =>
    (k, some (t ++ ' ' :: t')) :: windowize ((k', t') :: rest)

/-- One row of the table produced by agg_two_lines: the original word record
together with its text_agg cell. -/
structure MergedRow where
  word : Word
  text_agg : Option (List Char)
deriving DecidableEq

/-- Embedding of agg_two_lines (src/xbrl_image_parser.py lines 236-262):
every row of the caller table, in table order, annotated with the window of
its line key; a row whose key has no window (no level-4-or-deeper rows, or
the merge found nothing) receives NaN. -/
def agg_two_lines (dat : List Word) : List MergedRow :=
  let win := windowize (agg_level dat)
  dat.map (fun w =>
    { word := w
      text_agg :=
        match win.find? (fun p => p.1 == keyOf w) with
        | some p => p.2
        | none => none })

/-- Python substring test, the operator in for strings. -/
def isInfixL (n : List Char) : List Char → Bool
  | [] => n.isEmpty
  | c :: rest => n.isPrefixOf (c :: rest) || isInfixL n rest

/-- str of the text_agg cell of a merged row. -/
def strAgg (r : MergedRow) : List Char := strText r.text_agg

/-- Match filter of extract_stat_linesearch (src/xbrl_image_parser.py lines
317-323): keep the rows whose window contains the keyphrase, then keep those
whose window starts with the first four characters of the keyphrase.  The
second filter calls the string method startswith on the raw text_agg cell,
so a NaN window that survives the first filter raises an AttributeError. -/
def linesearchMatches (dat : List Word) (kp : List Char) :
    Except String (List MergedRow) :=
  let m1 := (agg_two_lines dat).filter (fun r => isInfixL kp (strAgg r))
  if m1.any (fun r => r.text_agg.isNone) then Except.error attrErr
  else Except.ok (m1.filter (fun r => (kp.take 4).isPrefixOf (strAgg r)))

/-- Words hunted down for a matched row (src/xbrl_image_parser.py lines
328-332): same page, vertical extent overlapping that of the matched row,
strictly to the right of its left edge, and with a non-NaN numerical value. -/
def candidates (dat : List Word) (r : MergedRow) : List Word :=
  dat.filter (fun w =>
    decide (w.top < r.word.bottom) && decide (r.word.top < w.bottom) &&
    (w.csv_num == r.word.csv_num) && decide (r.word.left < w.left) &&
    w.numerical.isSome)

/-- Row selected by dat_agg.iloc[0] at line 326 of the source: the first
matching row in table order; on an empty match set iloc raises. -/
def firstMatch (dat : List Word) (kp : List Char) : Except String MergedRow :=
  match linesearchMatches dat kp with
  | Except.error e => Except.error e
  | Except.ok [] => Except.error idxErr
  | Except.ok (r :: _) => Except.ok r

/-- Embedding of extract_stat_linesearch (src/xbrl_image_parser.py lines
308-344): sort the candidate words by left edge descending, slice the first
two, re-sort ascending, and return their numerical values and confidences.
An exception raised while locating the match propagates. -/
def extract_stat_linesearch (dat : List Word) (kp : List Char) :
    Except String (List ℚ × List ℚ) :=
  (firstMatch dat kp).map (fun r =>
    let sel := sortAscBy (fun w => w.left)
      ((sortDescBy (fun w => w.left) (candidates dat r)).take 2)
    (sel.map (fun w => w.numerical.getD 0), sel.map (fun w => w.conf)))

/-- Mutation performed by line 276 of the source: keyword_found records an
exact text equality with the keyword (false on a NaN text). -/
def setKwFlag (kw : List Char) (w : Word) : Word :=
  { w with keyword_found := some (match w.text with
                                  | some t => t == kw
                                  | none => false) }

/-- Alignment selection of extract_stat (src/xbrl_image_parser.py lines
284-287): as for the linesearch variant but without the numerical filter,
whose line is commented out in the source. -/
def candidatesNoNum (dat : List Word) (r : Word) : List Word :=
  dat.filter (fun w =>
    decide (w.top < r.bottom) && decide (r.top < w.bottom) &&
    (w.csv_num == r.csv_num) && decide (r.left < w.left))

/-- Embedding of extract_stat (src/xbrl_image_parser.py lines 267-305).  The
first component is the caller-visible table after the call.  Each keyword
occurrence contributes its two right-most aligned rows, the accumulated
frame is sliced to its first two rows, and their text, numerical and conf
columns are returned.  With no keyword occurrence the accumulated frame has
no columns at all and elements["text"] raises a KeyError. -/
def extract_stat (dat : List Word) (kw : List Char) :
    List Word ×
      Except String (List (Option (List Char)) × List (Option ℚ) × List ℚ) :=
  let dat' := dat.map (setKwFlag kw)
  (dat',
   match dat'.filter (fun w => w.keyword_found == some true) with
   | [] => Except.error keyErr
   | ms =>
     let elements := ((ms.map (fun r =>
       sortAscBy (fun w => w.left)
         ((sortDescBy (fun w => w.left) (candidatesNoNum dat' r)).take 2))).flatten).take 2
     Except.ok (elements.map (fun w => w.text), elements.map (fun w => w.numerical),
                elements.map (fun w => w.conf)))

/-- Erasure of the keyword_found column, used to compare tables up to that
column. -/
def eraseKF (w : Word) : Word := { w with keyword_found := none }

/-- One aggregated line of aggregate_sentences_over_lines before the
continuation walk: concatenated text, union bounding box, and the
lowercase-first-letter continuation flag. -/
structure LineAgg where
  key : LineKey
  text : List Char
  top : Int
  bottom : Int
  left : Int
  right : Int
  continued : Bool
deriving DecidableEq

/-- One line of the final output of aggregate_sentences_over_lines, after the
continued_line column has been dropped. -/
structure OutLine where
  key : LineKey
  text : List Char
  top : Int
  bottom : Int
  left : Int
  right : Int
deriving DecidableEq

/-- Python str.strip() with no argument: strip surrounding whitespace. -/
def wsStrip (s : List Char) : List Char := pyStrip [' ', '\t', '\n', '\r'] s

/-- Aggregated lines of aggregate_sentences_over_lines (src lines 156-171):
group every row of the table (no level filter here) by line key, join the
str of the texts with spaces and strip the character set "nan ", take the
union bounding box, and flag the line as continued when its
whitespace-stripped text starts with a lowercase letter. -/
def lineAggsOf (dat : List Word) : List LineAgg :=
  (sortKeys (firstOccs (dat.map keyOf))).filterMap (fun k =>
    match dat.filter (fun w => keyOf w == k) with
    | [] => none
    | w0 :: ws =>
      let g := w0 :: ws
      let t := pyStrip nanStripSet (joinSpace (g.map (fun w => strText w.text)))
      some { key := k
             text := t
             top := (g.map (fun w => w.top)).foldl min w0.top
             bottom := (g.map (fun w => w.bottom)).foldl max w0.bottom
             left := (g.map (fun w => w.left)).foldl min w0.left
             right := (g.map (fun w => w.right)).foldl max w0.right
             continued := match wsStrip t with
                          | c :: _ => isLowerAZ c
                          | [] => false })

/-- Merge of a continued line into the running accumulator (src lines
184-187): text appended with a space, bottom replaced, left and right
widened. -/
def mergeLine (acc row : LineAgg) : LineAgg :=
  { acc with
    text := acc.text ++ ' ' :: row.text
    bottom := row.bottom
    left := min acc.left row.left
    right := max acc.right row.right }

/-- Continuation walk of aggregate_sentences_over_lines from index 1 onward
(src lines 179-191): a continued row is merged into the accumulator, any
other row appends the accumulator and restarts it.  Exactly as in the
source, nothing is appended when the input ends, so the accumulator that is
live at the end of the loop is dropped. -/
def walkLines (acc : LineAgg) : List LineAgg → List LineAgg
  | [] => []
  | r :: rs => if r.continued then walkLines (mergeLine acc r) rs
               else acc :: walkLines r rs

/-- Embedding of aggregate_sentences_over_lines (src/xbrl_image_parser.py
lines 149-202).  At index 0 the loop takes its else branch whatever the
continuation flag says, appending row 0 and restarting the accumulator from
row 0; the walk then proceeds as walkLines.  Afterwards the rows whose text
contains a digit are dropped, every text is lowercased and reduced to its
letters a-z, and now-empty rows are dropped.  An empty table makes
line_text.iloc[0] raise. -/
def aggregate_sentences_over_lines (dat : List Word) :
    Except String (List OutLine) :=
  match lineAggsOf dat with
  | [] => Except.error idxErr
  | r0 :: rest =>
    let results := r0 :: walkLines r0 rest
    let results2 := results.filter (fun r => !(r.text.any isDigitC))
    let results3 := results2.map (fun r =>
      { r with text := (r.text.map Char.toLower).filter isLowerAZ })
    let results4 := results3.filter (fun r => !(wsStrip r.text).isEmpty)
    Except.ok (results4.map (fun r =>
      { key := r.key, text := r.text, top := r.top, bottom := r.bottom,
        left := r.left, right := r.right }))

/-- Constructor for a level-5 word record with the fields the claims use. -/
def mkW (csv blk par ln wn : Nat) (l t r b : Int) (tx : Option (List Char))
    (cf : ℚ) (nu : Option ℚ) : Word :=
  { csv_num := csv, level := 5, block_num := blk, par_num := par, line_num := ln,
    word_num := wn, left := l, top := t, right := r, bottom := b, text := tx,
    conf := cf, numerical := nu, keyword_found := none }

/-- Word one of the single-aligned-number example: the line label. -/
def w2a : Word := mkW 0 0 0 1 1 0 0 60 10 (some "totals".toList) 90 none

/-- Word two of the single-aligned-number example: the only aligned number. -/
def w2b : Word := mkW 0 0 0 1 2 100 0 130 10 (some "500".toList) 95 (some 500)

/-- Word three of the single-aligned-number example: an unrelated lower line. -/
def w2c : Word := mkW 0 0 0 2 1 0 20 40 30 (some "junk".toList) 80 none

/-- Table with a matched line that has exactly one aligned numeric word. -/
def dat2 : List Word := [w2a, w2b, w2c]

/-- Matched row of dat2 for the keyphrase totals. -/
def r2 : MergedRow := { word := w2a, text_agg := some "totals 500 junk".toList }

/-- Table for the continuation-stitching example: a line reading net assets
followed by a line reading excluding pension liability. -/
def dat3 : List Word :=
  [mkW 0 0 0 1 1 10 0 40 10 (some "net".toList) 90 none,
   mkW 0 0 0 1 2 50 0 90 10 (some "assets".toList) 91 none,
   mkW 0 0 0 2 1 10 20 80 30 (some "excluding".toList) 92 none,
   mkW 0 0 0 2 2 90 20 150 30 (some "pension".toList) 93 none,
   mkW 0 0 0 2 3 160 20 230 30 (some "liability".toList) 94 none]

/-- Label word of the three-aligned-numbers example. -/
def w4l : Word := mkW 0 0 0 1 1 0 0 40 10 (some "cash".toList) 90 none

/-- Leftmost aligned number of the three-aligned-numbers example. -/
def w4x : Word := mkW 0 0 0 1 2 50 0 70 10 (some "10".toList) 80 (some 10)

/-- Middle aligned number of the three-aligned-numbers example. -/
def w4y : Word := mkW 0 0 0 1 3 100 0 120 10 (some "20".toList) 81 (some 20)

/-- Rightmost aligned number of the three-aligned-numbers example. -/
def w4z : Word := mkW 0 0 0 1 4 150 0 170 10 (some "30".toList) 82 (some 30)

/-- Unrelated lower line of the three-aligned-numbers example. -/
def w4j : Word := mkW 0 0 0 2 1 0 20 40 30 (some "junk".toList) 70 none

/-- Table with a matched line that has three aligned numeric words. -/
def dat4 : List Word := [w4l, w4x, w4y, w4z, w4j]

/-- Matched row of dat4 for the keyphrase cash. -/
def r4 : MergedRow := { word := w4l, text_agg := some "cash 10 20 30 junk".toList }

/-- First word of the short-line anchor example: a line whose whole text is
the three characters due. -/
def w5a : Word := mkW 0 0 0 1 1 0 0 30 10 (some "due".toList) 90 none

/-- Second line, first word, of the short-line anchor example. -/
def w5b : Word := mkW 0 0 0 2 1 0 20 40 30 (some "from".toList) 91 none

/-- Second line, second word, of the short-line anchor example. -/
def w5c : Word := mkW 0 0 0 2 2 50 20 140 30 (some "customers".toList) 92 none

/-- Table whose first line is shorter than four characters yet anchors a
keyphrase match through its two-line window. -/
def dat5 : List Word := [w5a, w5b, w5c]

/-- Matched row of dat5 for the keyphrase due from. -/
def r5 : MergedRow := { word := w5a, text_agg := some "due from customers".toList }

/-- Word record carrying one numerical year value. -/
def yWord (q : ℚ) : Word := mkW 0 0 0 1 1 0 0 10 10 (some "year".toList) 90 (some q)

/-- Year multiset with counts 2018 two and 2019 one: the two most frequent
years differ by one in absolute value but the more frequent is the earlier. -/
def T1cx : List Word := [yWord 2018, yWord 2018, yWord 2019]

/-- Year multiset 2019 five, 2018 four, 2017 one. -/
def T1a : List Word :=
  List.replicate 5 (yWord 2019) ++ List.replicate 4 (yWord 2018) ++ [yWord 2017]

/-- Year multiset 2019 five, 2017 four. -/
def T1b : List Word := List.replicate 5 (yWord 2019) ++ List.replicate 4 (yWord 2017)

/-- Word record carrying one text token. -/
def uWord (s : String) : Word := mkW 0 0 0 1 1 0 0 10 10 (some s.toList) 90 none

/-- Unit token multiset with twelve pound-m tokens and three dollar tokens. -/
def T6 : List Word := List.replicate 12 (uWord "£m") ++ List.replicate 3 (uWord "$")

/-- Table with no currency token at all. -/
def T7 : List Word := [uWord "hello"]

/-- One-row table used to observe the caller-visible column mutation. -/
def T9 : List Word := [uWord "x"]

/-
Helper lemmas about the sorting, tallying and stripping machinery.
-/

theorem insertDescBy_perm {α β : Type} [LinearOrder β] (key : α → β) (x : α)
    (l : List α) : (insertDescBy key x l).Perm (x :: l) := by
  induction l with
  | nil => exact List.Perm.refl _
  | cons y ys ih =>
    by_cases h : key y ≤ key x
    · simp only [insertDescBy, if_pos h]
      exact List.Perm.refl _
    · simp only [insertDescBy, if_neg h]
      exact (ih.cons y).trans (List.Perm.swap x y ys)

theorem sortDescBy_perm {α β : Type} [LinearOrder β] (key : α → β) (l : List α) :
    (sortDescBy key l).Perm l := by
  induction l with
  | nil => exact List.Perm.refl _
  | cons x xs ih => exact (insertDescBy_perm key x _).trans (ih.cons x)

theorem insertAscBy_perm {α β : Type} [LinearOrder β] (key : α → β) (x : α)
    (l : List α) : (insertAscBy key x l).Perm (x :: l) := by
  induction l with
  | nil => exact List.Perm.refl _
  | cons y ys ih =>
    by_cases h : key x ≤ key y
    · simp only [insertAscBy, if_pos h]
      exact List.Perm.refl _
    · simp only [insertAscBy, if_neg h]
      exact (ih.cons y).trans (List.Perm.swap x y ys)

theorem sortAscBy_perm {α β : Type} [LinearOrder β] (key : α → β) (l : List α) :
    (sortAscBy key l).Perm l := by
  induction l with
  | nil => exact List.Perm.refl _
  | cons x xs ih => exact (insertAscBy_perm key x _).trans (ih.cons x)

theorem pairwise_insertDescBy {α β : Type} [LinearOrder β] (key : α → β) (x : α)
    {l : List α} (h : l.Pairwise (fun a b => key b ≤ key a)) :
    (insertDescBy key x l).Pairwise (fun a b => key b ≤ key a) := by
  induction l with
  | nil => simp [insertDescBy]
  | cons y ys ih =>
    rcases List.pairwise_cons.mp h with ⟨hy, hys⟩
    by_cases hle : key y ≤ key x
    · simp only [insertDescBy, if_pos hle]
      refine List.pairwise_cons.mpr ⟨?_, h⟩
      intro z hz
      rcases List.mem_cons.mp hz with rfl | hz'
      · exact hle
      · exact le_trans (hy z hz') hle
    · simp only [insertDescBy, if_neg hle]
      refine List.pairwise_cons.mpr ⟨?_, ih hys⟩
      intro z hz
      rcases List.mem_cons.mp ((insertDescBy_perm key x ys).mem_iff.mp hz) with rfl | hz'
      · exact le_of_lt (not_le.mp hle)
      · exact hy z hz'

theorem pairwise_sortDescBy {α β : Type} [LinearOrder β] (key : α → β) (l : List α) :
    (sortDescBy key l).Pairwise (fun a b => key b ≤ key a) := by
  induction l with
  | nil => simp [sortDescBy]
  | cons x xs ih => exact pairwise_insertDescBy key x ih

theorem pairwise_lt_of_nodup_keys {α β : Type} [LinearOrder β] {key : α → β}
    {l : List α} (hp : l.Pairwise (fun a b => key b ≤ key a))
    (hn : (l.map key).Nodup) : l.Pairwise (fun a b => key b < key a) := by
  induction l with
  | nil => simp
  | cons x xs ih =>
    rcases List.pairwise_cons.mp hp with ⟨hx, hxs⟩
    simp only [List.map_cons, List.nodup_cons] at hn
    refine List.pairwise_cons.mpr ⟨?_, ih hxs hn.2⟩
    intro z hz
    refine lt_of_le_of_ne (hx z hz) ?_
    intro heq
    exact hn.1 (heq ▸ List.mem_map_of_mem key hz)

theorem sortDescBy_head_max {α β : Type} [LinearOrder β] (key : α → β)
    (l : List α) (x0 : α) (h0 : x0 ∈ l)
    (hall : ∀ y ∈ l, y = x0 ∨ key y < key x0) :
    ∃ rest, sortDescBy key l = x0 :: rest := by
  have hperm := sortDescBy_perm key l
  have hmem : x0 ∈ sortDescBy key l := hperm.mem_iff.mpr h0
  have hp := pairwise_sortDescBy key l
  obtain ⟨a, s, hs⟩ : ∃ a s, sortDescBy key l = a :: s := by
    cases h : sortDescBy key l with
    | nil => rw [h] at hmem; simp at hmem
    | cons a s => exact ⟨a, s, rfl⟩
  rw [hs] at hmem hp hperm
  have ha : a ∈ l := hperm.mem_iff.mp (List.mem_cons_self a s)
  rcases hall a ha with rfl | hlt
  · exact ⟨s, hs⟩
  · exfalso
    rcases List.mem_cons.mp hmem with rfl | hmem'
    · exact lt_irrefl _ hlt
    · exact absurd hlt (not_lt.mpr ((List.pairwise_cons.mp hp).1 x0 hmem'))

theorem sortDescBy_top_two {α β : Type} [LinearOrder β] [DecidableEq α]
    (key : α → β) (l : List α) (x0 x1 : α)
    (h0 : x0 ∈ l) (h1 : x1 ∈ l) (hc0 : l.count x0 = 1)
    (hk : key x1 < key x0)
    (hall : ∀ y ∈ l, y = x0 ∨ y = x1 ∨ key y < key x1) :
    ∃ rest, sortDescBy key l = x0 :: x1 :: rest := by
  have hne : x1 ≠ x0 := by
    intro h
    rw [h] at hk
    exact lt_irrefl _ hk
  obtain ⟨s1, hs1⟩ := sortDescBy_head_max key l x0 h0 (by
    intro y hy
    rcases hall y hy with h | h | h
    · exact Or.inl h
    · exact Or.inr (h ▸ hk)
    · exact Or.inr (lt_trans h hk))
  have hperm := sortDescBy_perm key l
  have hp := pairwise_sortDescBy key l
  rw [hs1] at hperm hp
  have hmem1 : x1 ∈ x0 :: s1 := hperm.mem_iff.mpr h1
  have hmem1' : x1 ∈ s1 := by
    rcases List.mem_cons.mp hmem1 with h | h
    · exact absurd h hne
    · exact h
  obtain ⟨b, s2, hs2⟩ : ∃ b s2, s1 = b :: s2 := by
    cases h : s1 with
    | nil => rw [h] at hmem1'; simp at hmem1'
    | cons b s2 => exact ⟨b, s2, rfl⟩
  rw [hs2] at hperm hp hmem1'
  have hb : b ∈ l := hperm.mem_iff.mp (List.mem_cons_of_mem _ (List.mem_cons_self b s2))
  rcases hall b hb with rfl | rfl | hblt
  · exfalso
    have hcnt := hperm.count_eq b
    rw [hc0] at hcnt
    simp [List.count_cons] at hcnt
  · exact ⟨s2, by rw [hs1, hs2]⟩
  · exfalso
    rcases List.mem_cons.mp hmem1' with rfl | hmem2
    · exact lt_irrefl _ hblt
    · have := (List.pairwise_cons.mp (List.pairwise_cons.mp hp).2).1 x1 hmem2
      exact absurd hblt (not_lt.mpr this)

theorem mem_firstOccsAux {α : Type} [DecidableEq α] {a : α} :
    ∀ (l seen : List α), a ∈ firstOccsAux seen l ↔ (a ∈ l ∧ a ∉ seen) := by
  intro l
  induction l with
  | nil =>
    intro seen
    simp [firstOccsAux]
  | cons x xs ih =>
    intro seen
    by_cases h : x ∈ seen
    · simp only [firstOccsAux, if_pos h]
      rw [ih seen]
      constructor
      · rintro ⟨hx, hn⟩
        exact ⟨List.mem_cons_of_mem x hx, hn⟩
      · rintro ⟨hx, hn⟩
        rcases List.mem_cons.mp hx with rfl | hx'
        · exact absurd h hn
        · exact ⟨hx', hn⟩
    · simp only [firstOccsAux, if_neg h]
      constructor
      · intro hin
        rcases List.mem_cons.mp hin with rfl | hin'
        · exact ⟨List.mem_cons_self _ _, h⟩
        · rcases (ih (x :: seen)).mp hin' with ⟨hx, hn⟩
          exact ⟨List.mem_cons_of_mem x hx, fun hs => hn (List.mem_cons_of_mem x hs)⟩
      · rintro ⟨hx, hn⟩
        rcases List.mem_cons.mp hx with rfl | hx'
        · exact List.mem_cons_self _ _
        · by_cases hax : a = x
          · subst hax
            exact List.mem_cons_self _ _
          · refine List.mem_cons_of_mem _ ((ih (x :: seen)).mpr ⟨hx', ?_⟩)
            intro hs
            rcases List.mem_cons.mp hs with h1 | h1
            · exact hax h1
            · exact hn h1

theorem mem_firstOccs {α : Type} [DecidableEq α] {l : List α} {a : α} :
    a ∈ firstOccs l ↔ a ∈ l := by
  rw [firstOccs, mem_firstOccsAux l []]
  simp

theorem nodup_firstOccsAux {α : Type} [DecidableEq α] :
    ∀ (l seen : List α), (firstOccsAux seen l).Nodup := by
  intro l
  induction l with
  | nil =>
    intro seen
    simp [firstOccsAux]
  | cons x xs ih =>
    intro seen
    by_cases h : x ∈ seen
    · simp only [firstOccsAux, if_pos h]
      exact ih seen
    · simp only [firstOccsAux, if_neg h]
      refine List.nodup_cons.mpr ⟨?_, ih (x :: seen)⟩
      intro hmem
      rcases (mem_firstOccsAux xs (x :: seen)).mp hmem with ⟨-, hn⟩
      exact hn (List.mem_cons_self x seen)

theorem nodup_firstOccs {α : Type} [DecidableEq α] (l : List α) :
    (firstOccs l).Nodup := nodup_firstOccsAux l []

theorem tally_mem {α : Type} [DecidableEq α] {vals : List α} {v : α} {n : Nat} :
    (v, n) ∈ tally vals ↔ v ∈ vals ∧ n = cnt v vals := by
  simp only [tally, List.mem_map, mem_firstOccs]
  constructor
  · rintro ⟨a, ha, heq⟩
    obtain ⟨rfl, rfl⟩ : a = v ∧ cnt a vals = n := by
      constructor
      · exact congrArg Prod.fst heq
      · exact congrArg Prod.snd heq
    exact ⟨ha, rfl⟩
  · rintro ⟨hv, rfl⟩
    exact ⟨v, hv, rfl⟩

theorem map_fst_pair {α γ : Type} (f : α → γ) (l : List α) :
    (l.map (fun v => (v, f v))).map Prod.fst = l := by
  induction l with
  | nil => rfl
  | cons x xs ih => simp [ih]

theorem tally_fst {α : Type} [DecidableEq α] (vals : List α) :
    (tally vals).map Prod.fst = firstOccs vals := map_fst_pair _ _

theorem nodup_tally {α : Type} [DecidableEq α] (vals : List α) :
    (tally vals).Nodup := by
  have := nodup_firstOccs vals
  rw [← tally_fst] at this
  exact this.of_map Prod.fst

theorem tally_length {α : Type} [DecidableEq α] (vals : List α) :
    (tally vals).length = (firstOccs vals).length := by
  simp [tally]

theorem units_texts_eq (subset : List Word) :
    ((subset.map setUnitsFlag).filter (fun w => w.keyword_found == some true)).map
        (fun w => strText w.text) = unitMatchTexts subset := by
  induction subset with
  | nil => rfl
  | cons w ws ih =>
    cases h : matchesUnits (strText w.text) <;>
      simp [setUnitsFlag, unitMatchTexts, List.filter_cons, h] at ih ⊢ <;>
      simpa [setUnitsFlag, unitMatchTexts] using ih

theorem determine_units_count_snd (subset : List Word) :
    (determine_units_count subset).2 = unitsCore (unitMatchTexts subset) := by
  simp only [determine_units_count]
  rw [units_texts_eq]

theorem years_vals_eq (subset : List Word) :
    ((subset.map setYearsFlag).filter (fun w => w.keyword_found == some true)).filterMap
        (fun w => w.numerical) = yearVals subset := by
  induction subset with
  | nil => rfl
  | cons w ws ih =>
    cases h : inRangeYear w
    · simp [setYearsFlag, yearVals, List.filter_cons, List.filterMap_cons, h] at ih ⊢
      simpa [setYearsFlag, yearVals] using ih
    · cases hn : w.numerical with
      | none =>
        exfalso
        rw [inRangeYear, hn] at h
        exact Bool.false_ne_true h
      | some q =>
        simp [setYearsFlag, yearVals, List.filter_cons, List.filterMap_cons, h, hn] at ih ⊢
        simpa [setYearsFlag, yearVals] using ih

theorem determine_years_count_snd (subset : List Word) :
    (determine_years_count subset).2 = yearsCore (yearVals subset) := by
  simp only [determine_years_count]
  rw [years_vals_eq]

theorem dropWhile_of_false {α : Type} {p : α → Bool} {l : List α}
    (h : ∀ c ∈ l, p c = false) : l.dropWhile p = l := by
  cases l with
  | nil => rfl
  | cons c cs =>
    rw [List.dropWhile_cons, if_neg]
    simp [h c (List.mem_cons_self c cs)]

theorem pyStrip_of_no {cs l : List Char}
    (h : ∀ c ∈ l, cs.contains c = false) : pyStrip cs l = l := by
  unfold pyStrip pyLstrip pyRstrip
  rw [dropWhile_of_false h, dropWhile_of_false, List.reverse_reverse]
  intro c hc
  exact h c (List.mem_reverse.mp hc)

theorem contains_single_false {a c : Char} (h : c ≠ a) : [a].contains c = false := by
  simp [List.contains, h]

theorem pyStrip_open_append {l : List Char}
    (h : ∀ c ∈ l, List.contains ['('] c = false) :
    pyStrip ['('] ('(' :: l ++ [')']) = l ++ [')'] := by
  have hdrop : List.dropWhile (fun c => List.contains ['('] c) (l ++ [')']) = l ++ [')'] := by
    apply dropWhile_of_false
    intro c hc
    rcases List.mem_append.mp hc with hc' | hc'
    · exact h c hc'
    · rw [List.mem_singleton.mp hc']
      decide
  unfold pyStrip pyLstrip pyRstrip
  rw [List.cons_append, List.dropWhile_cons, if_pos (by decide), hdrop,
      List.reverse_append, List.reverse_singleton, List.singleton_append,
      List.dropWhile_cons, if_neg (by decide), List.reverse_cons, List.reverse_reverse]

theorem pyStrip_close_append {l : List Char}
    (h : ∀ c ∈ l, List.contains [')'] c = false) :
    pyStrip [')'] (l ++ [')']) = l := by
  unfold pyStrip pyLstrip pyRstrip
  cases l with
  | nil => rfl
  | cons c0 t =>
    rw [List.cons_append, List.dropWhile_cons,
        if_neg (by
          rw [h c0 (List.mem_cons_self c0 t)]
          exact Bool.false_ne_true),
        ← List.cons_append, List.reverse_append, List.reverse_singleton,
        List.singleton_append, List.dropWhile_cons, if_pos (by decide),
        dropWhile_of_false, List.reverse_reverse]
    intro c hc
    exact h c (List.mem_reverse.mp hc)

theorem exceptMap_ok {ε α β : Type} (f : α → β) (a : α) :
    (Except.ok a : Except ε α).map f = Except.ok (f a) := rfl

theorem strAgg_some {r : MergedRow} {t : List Char} (h : r.text_agg = some t) :
    strAgg r = t := by
  rw [strAgg, h]
  rfl

/-
Claim theorems.
-/

/-- C8 (confirmed): convert_to_numeric removes the commas and strips
surrounding parentheses before parsing, does not invert the sign of a
parenthesized value, so the string (1,234) parses to 1234 and not to -1234,
and a non-numeric cleaned string yields NaN (none) instead of raising. -/
theorem C8_thm :
    (convert_to_numeric "(1,234)".toList = some 1234 ∧
     convert_to_numeric "(1,234)".toList ≠ some (-1234)) ∧
    (∀ s : List Char, '(' ∉ s → ')' ∉ s →
      convert_to_numeric ('(' :: s ++ [')']) = convert_to_numeric s) ∧
    (∀ s : List Char,
      convert_to_numeric (s.filter (fun c => c != ',')) = convert_to_numeric s) ∧
    convert_to_numeric "abc".toList = none := by
  refine ⟨⟨by decide, by decide⟩, ?_, ?_, by decide⟩
  · intro s h1 h2
    have hfilter : (('(' :: s ++ [')']).filter (fun c => c != ',')) =
        '(' :: s.filter (fun c => c != ',') ++ [')'] := by
      simp [List.filter_append, List.filter_cons]
    have hsub : ∀ c ∈ s.filter (fun c => c != ','), c ∈ s :=
      fun c hc => (List.mem_filter.mp hc).1
    have hcont1 : ∀ c ∈ s.filter (fun c => c != ','), List.contains ['('] c = false :=
      fun c hc => contains_single_false (fun he => h1 (he ▸ hsub c hc))
    have hcont2 : ∀ c ∈ s.filter (fun c => c != ','), List.contains [')'] c = false :=
      fun c hc => contains_single_false (fun he => h2 (he ▸ hsub c hc))
    unfold convert_to_numeric
    rw [hfilter, pyStrip_open_append hcont1, pyStrip_close_append hcont2,
        pyStrip_of_no hcont1, pyStrip_of_no hcont2]
  · intro s
    unfold convert_to_numeric
    rw [List.filter_filter]
    simp only [Bool.and_self]

/-- C8 witness: the parenthesis-stripping equation of C8_thm evaluated at the
string 12. -/
theorem C8_witness :
    '(' ∉ "12".toList ∧
    convert_to_numeric ('(' :: "12".toList ++ [')']) = convert_to_numeric "12".toList :=
  ⟨by decide, C8_thm.2.1 "12".toList (by decide) (by decide)⟩

/-- C3 (code bug): on a line reading net assets followed by a continuation
line reading excluding pension liability, the source emits a single line
whose text is etassets with the bounding box of the first line only.  The
strip of the character set "nan " eats the leading letter n of the joined
text net assets, and the loop appends the first row at index 0 and never
appends the accumulator that absorbed the continuation, so the stitched line
net assets excluding pension liability is never emitted. -/
theorem C3_thm :
    aggregate_sentences_over_lines dat3 =
      Except.ok [{ key := (0, 0, 0, 1), text := "etassets".toList, top := 0,
                   bottom := 10, left := 10, right := 90 }] := by
  rfl

/-- C7 (corrected): with no currency match at all, determine_units_count does
not return an empty result; the lookup units.loc[0, "text"] raises a
KeyError. -/
theorem C7_thm (subset : List Word)
    (h : ∀ w ∈ subset, matchesUnits (strText w.text) = false) :
    (determine_units_count subset).2 = Except.error keyErr := by
  rw [determine_units_count_snd]
  have hempty : unitMatchTexts subset = [] := by
    unfold unitMatchTexts
    rw [List.filter_eq_nil_iff.mpr (by
      intro w hw
      rw [h w hw]
      exact Bool.false_ne_true)]
    rfl
  rw [hempty]
  rfl

/-- C7 counterexample: on a table whose only text is hello, there is no
currency match and the call produces the KeyError outcome instead of a valid
empty result. -/
theorem C7_counterexample :
    unitMatchTexts T7 = [] ∧ (determine_units_count T7).2 = Except.error keyErr :=
  ⟨rfl, rfl⟩

/-- C7 witness: C7_thm applied to the empty table. -/
theorem C7_witness :
    (determine_units_count ([] : List Word)).2 = Except.error keyErr :=
  C7_thm [] (by decide)

/-- C6 (confirmed): determine_units_count counts every word whose text starts
with a token of the currency vocabulary and returns the strictly most
frequent such text together with its occurrence count. -/
theorem C6_thm (subset : List Word) (t : List Char)
    (ht : t ∈ unitMatchTexts subset)
    (hmax : ∀ u ∈ unitMatchTexts subset, u ≠ t →
      cnt u (unitMatchTexts subset) < cnt t (unitMatchTexts subset)) :
    (determine_units_count subset).2 =
      Except.ok (t, cnt t (unitMatchTexts subset)) := by
  rw [determine_units_count_snd]
  obtain ⟨rest, hs⟩ := sortDescBy_head_max (fun p : List Char × Nat => p.2)
    (tally (unitMatchTexts subset)) (t, cnt t (unitMatchTexts subset))
    (tally_mem.mpr ⟨ht, rfl⟩)
    (by
      rintro ⟨u, n⟩ hu
      rcases tally_mem.mp hu with ⟨humem, rfl⟩
      by_cases he : u = t
      · subst he
        exact Or.inl rfl
      · exact Or.inr (hmax u humem he))
  unfold unitsCore
  rw [hs]

/-- C6 witness: C6_thm applied to the vote with twelve pound-m tokens against
three dollar tokens, which returns the pound-m token with count twelve. -/
theorem C6_witness :
    (determine_units_count T6).2 = Except.ok ("£m".toList, 12) := by
  have h := C6_thm T6 "£m".toList (by decide) (by decide)
  rwa [show cnt "£m".toList (unitMatchTexts T6) = 12 by decide] at h

/-- C9 counterexample: determine_units_count writes a keyword_found column
into the table the caller passed in, so the caller-visible table after the
call differs from the table before it. -/
theorem C9_counterexample : (determine_units_count T9).1 ≠ T9 := by decide

/-- C9 (corrected): determine_units_count and extract_stat mutate the
caller table by writing its keyword_found column, but they preserve every
other field of every word record and change nothing else. -/
theorem C9_thm (subset : List Word) (kw : List Char) :
    (determine_units_count subset).1.map eraseKF = subset.map eraseKF ∧
    (extract_stat subset kw).1.map eraseKF = subset.map eraseKF := by
  constructor
  · show (subset.map setUnitsFlag).map eraseKF = subset.map eraseKF
    rw [List.map_map]
    induction subset with
    | nil => rfl
    | cons w ws ih =>
      simp only [List.map_cons] at ih ⊢
      rw [ih]
      rfl
  · show (subset.map (setKwFlag kw)).map eraseKF = subset.map eraseKF
    rw [List.map_map]
    induction subset with
    | nil => rfl
    | cons w ws ih =>
      simp only [List.map_cons] at ih ⊢
      rw [ih]
      rfl

/-- C1 (corrected): determine_years_count tallies the numerical values in the
inclusive window [2000, 2050], takes the strictly most frequent year y0 and
the strictly second most frequent year y1, and returns the pair exactly when
the count-ordered difference y0 - y1 equals 1, returning the failure value 0
otherwise - in particular also when the two years differ by exactly one in
absolute value but the later year is the less frequent one. -/
theorem C1_thm (subset : List Word) (y0 y1 : ℚ)
    (h0 : y0 ∈ yearVals subset) (h1 : y1 ∈ yearVals subset)
    (hlt : cnt y1 (yearVals subset) < cnt y0 (yearVals subset))
    (hall : ∀ z ∈ yearVals subset,
      z = y0 ∨ z = y1 ∨ cnt z (yearVals subset) < cnt y1 (yearVals subset)) :
    (determine_years_count subset).2 =
      Except.ok (if y0 - y1 = 1 then YearsResult.pair y0 y1 else YearsResult.zero) := by
  rw [determine_years_count_snd]
  obtain ⟨rest, hs⟩ := sortDescBy_top_two (fun p : ℚ × Nat => p.2)
    (tally (yearVals subset)) (y0, cnt y0 (yearVals subset)) (y1, cnt y1 (yearVals subset))
    (tally_mem.mpr ⟨h0, rfl⟩) (tally_mem.mpr ⟨h1, rfl⟩)
    (List.count_eq_one_of_mem (nodup_tally (yearVals subset)) (tally_mem.mpr ⟨h0, rfl⟩))
    hlt
    (by
      rintro ⟨z, n⟩ hz
      rcases tally_mem.mp hz with ⟨hzm, rfl⟩
      rcases hall z hzm with rfl | rfl | hc
      · exact Or.inl rfl
      · exact Or.inr (Or.inl rfl)
      · exact Or.inr (Or.inr hc))
  unfold yearsCore topTwoVals
  rw [hs]
  rfl

/-- C1 counterexample: over the year multiset with 2018 twice and 2019 once,
the two most frequent in-window years are 2018 and 2019, which differ by
exactly one, yet determine_years_count returns the failure value 0 rather
than the pair, because the difference it tests is the signed one, most
frequent minus second most frequent, which here is -1. -/
theorem C1_counterexample :
    topTwoYears T1cx = [(2018 : ℚ), 2019] ∧
    (2019 : ℚ) - 2018 = 1 ∧
    (determine_years_count T1cx).2 = Except.ok YearsResult.zero := by
  refine ⟨by decide, by norm_num, ?_⟩
  rw [determine_years_count_snd]
  unfold yearsCore
  rw [show topTwoVals (yearVals T1cx) = [(2018 : ℚ), 2019] by decide]
  show Except.ok (if (2018 : ℚ) - 2019 = 1 then YearsResult.pair 2018 2019
    else YearsResult.zero) = Except.ok YearsResult.zero
  rw [if_neg (by norm_num : ¬((2018 : ℚ) - 2019 = 1))]

/-- C1 witness: C1_thm applied to the multiset 2019 five, 2018 four, 2017 one
where it returns the pair, and to the multiset 2019 five, 2017 four where it
returns the failure value. -/
theorem C1_witness :
    (determine_years_count T1a).2 = Except.ok (YearsResult.pair 2019 2018) ∧
    (determine_years_count T1b).2 = Except.ok YearsResult.zero := by
  constructor
  · have h := C1_thm T1a 2019 2018 (by decide) (by decide) (by decide) (by decide)
    rw [if_pos (by norm_num : (2019 : ℚ) - 2018 = 1)] at h
    exact h
  · have h := C1_thm T1b 2019 2017 (by decide) (by decide) (by decide) (by decide)
    rw [if_neg (by norm_num : ¬((2019 : ℚ) - 2017 = 1))] at h
    exact h

/-- C10 (confirmed): with fewer than two distinct candidate years, including
the empty case, determine_years_count raises an out-of-bounds indexing
exception instead of returning its documented failure value; with two
candidates it returns the difference-test outcome, and the value 0 is only
ever produced when at least two distinct candidate years exist. -/
theorem C10_thm (subset : List Word) :
    ((firstOccs (yearVals subset)).length < 2 →
      (determine_years_count subset).2 = Except.error idxErr)
    ∧ (∀ c0 c1 : ℚ, topTwoYears subset = [c0, c1] →
        (determine_years_count subset).2 =
          Except.ok (if c0 - c1 = 1 then YearsResult.pair c0 c1 else YearsResult.zero))
    ∧ ((determine_years_count subset).2 = Except.ok YearsResult.zero →
        2 ≤ (firstOccs (yearVals subset)).length) := by
  have hsnd := determine_years_count_snd subset
  have hlen : (topTwoVals (yearVals subset)).length =
      min 2 (firstOccs (yearVals subset)).length := by
    unfold topTwoVals
    rw [List.length_take, List.length_map, (sortDescBy_perm _ _).length_eq, tally_length]
  refine ⟨?_, ?_, ?_⟩
  · intro h2
    rw [hsnd]
    unfold yearsCore
    cases hts : topTwoVals (yearVals subset) with
    | nil => rfl
    | cons c0 t =>
      cases t with
      | nil => rfl
      | cons c1 t2 =>
        exfalso
        rw [hts] at hlen
        simp only [List.length_cons] at hlen
        omega
  · intro c0 c1 hts
    rw [hsnd]
    unfold yearsCore
    unfold topTwoYears at hts
    rw [hts]
  · intro hz
    rw [hsnd] at hz
    unfold yearsCore at hz
    rcases hts : topTwoVals (yearVals subset) with _ | ⟨c0, _ | ⟨c1, t2⟩⟩
    · rw [hts] at hz
      exact Except.noConfusion hz
    · rw [hts] at hz
      exact Except.noConfusion hz
    · rw [hts] at hlen
      simp only [List.length_cons] at hlen
      omega

/-- C10 witness: C10_thm applied to the empty table, where the call raises,
and to the multiset 2018 twice and 2019 once, where the difference test runs
on the two candidates. -/
theorem C10_witness :
    (determine_years_count ([] : List Word)).2 = Except.error idxErr ∧
    (determine_years_count T1cx).2 =
      Except.ok (if (2018 : ℚ) - 2019 = 1 then YearsResult.pair 2018 2019
                 else YearsResult.zero) :=
  ⟨(C10_thm []).1 (by decide), (C10_thm T1cx).2.1 2018 2019 (by decide)⟩

/-- C2 (corrected): extract_stat_linesearch returns the numeric values and
confidences of the up-to-two rightmost aligned numeric words; when exactly
one numeric word aligns with the matched row it returns a single-value
result instead of yielding nothing, so an extraction result can carry one
numeric value, not only zero or two. -/
theorem C2_thm (dat : List Word) (kp : List Char) (r : MergedRow)
    (hm : firstMatch dat kp = Except.ok r) :
    ∃ vals confs, extract_stat_linesearch dat kp = Except.ok (vals, confs) ∧
      vals.length = min 2 (candidates dat r).length ∧
      confs.length = min 2 (candidates dat r).length := by
  refine ⟨(sortAscBy (fun w => w.left)
            ((sortDescBy (fun w => w.left) (candidates dat r)).take 2)).map
              (fun w => w.numerical.getD 0),
          (sortAscBy (fun w => w.left)
            ((sortDescBy (fun w => w.left) (candidates dat r)).take 2)).map
              (fun w => w.conf), ?_, ?_, ?_⟩
  · unfold extract_stat_linesearch
    rw [hm]
    rfl
  · rw [List.length_map, (sortAscBy_perm _ _).length_eq, List.length_take,
        (sortDescBy_perm _ _).length_eq]
  · rw [List.length_map, (sortAscBy_perm _ _).length_eq, List.length_take,
        (sortDescBy_perm _ _).length_eq]

/-- C2 counterexample: on a table whose matched line has exactly one aligned
numeric word, extract_stat_linesearch returns a single-value result, with
one numeric value and one confidence, which the claim says is never
returned. -/
theorem C2_counterexample :
    extract_stat_linesearch dat2 "totals".toList =
      Except.ok ([(500 : ℚ)], [(95 : ℚ)]) := by
  rfl

/-- C2 witness: C2_thm applied to the single-aligned-number table, where the
candidate set has one element and the result carries exactly one value. -/
theorem C2_witness :
    ∃ vals confs, extract_stat_linesearch dat2 "totals".toList = Except.ok (vals, confs) ∧
      vals.length = min 2 (candidates dat2 r2).length ∧
      confs.length = min 2 (candidates dat2 r2).length :=
  C2_thm dat2 "totals".toList r2 (by rfl)

/-- C4 (confirmed): for the matched row, extract_stat_linesearch considers
exactly the words of the table on the same page whose vertical extent
overlaps that of the matched row, lying strictly to the right of its left
edge, and carrying a parsed numeric value; with at least two such candidates
(of pairwise distinct left edges, so that rightmost is well defined) it
returns the numeric values and confidences of the two rightmost candidates,
re-sorted into ascending horizontal order. -/
theorem C4_thm (dat : List Word) (kp : List Char) (r : MergedRow)
    (hm : firstMatch dat kp = Except.ok r)
    (hnd : ((candidates dat r).map (fun w => w.left)).Nodup)
    (h2 : 2 ≤ (candidates dat r).length) :
    (∀ w : Word, w ∈ candidates dat r ↔
      (w ∈ dat ∧ w.top < r.word.bottom ∧ r.word.top < w.bottom ∧
       w.csv_num = r.word.csv_num ∧ r.word.left < w.left ∧ w.numerical.isSome = true))
    ∧ ∃ w1 w2, w1 ∈ candidates dat r ∧ w2 ∈ candidates dat r ∧ w1.left < w2.left ∧
        (∀ w ∈ candidates dat r, w ≠ w1 → w ≠ w2 → w.left < w1.left) ∧
        extract_stat_linesearch dat kp =
          Except.ok ([w1.numerical.getD 0, w2.numerical.getD 0], [w1.conf, w2.conf]) := by
  constructor
  · intro w
    simp only [candidates, List.mem_filter, Bool.and_eq_true, decide_eq_true_eq,
      beq_iff_eq]
    tauto
  · have hperm := sortDescBy_perm (fun w : Word => w.left) (candidates dat r)
    have hpair := pairwise_sortDescBy (fun w : Word => w.left) (candidates dat r)
    have hndS : ((sortDescBy (fun w : Word => w.left) (candidates dat r)).map
        (fun w => w.left)).Nodup :=
      ((hperm.map (fun w : Word => w.left)).nodup_iff).mpr hnd
    have hstrict := pairwise_lt_of_nodup_keys hpair hndS
    have hlen : 2 ≤ (sortDescBy (fun w : Word => w.left) (candidates dat r)).length := by
      rw [hperm.length_eq]
      exact h2
    obtain ⟨a, b, rest, hs⟩ : ∃ a b rest,
        sortDescBy (fun w : Word => w.left) (candidates dat r) = a :: b :: rest := by
      cases h1 : sortDescBy (fun w : Word => w.left) (candidates dat r) with
      | nil =>
        rw [h1] at hlen
        simp at hlen
      | cons a t =>
        cases t with
        | nil =>
          rw [h1] at hlen
          simp at hlen
        | cons b rest => exact ⟨a, b, rest, rfl⟩
    rw [hs] at hperm hstrict
    have hba : b.left < a.left :=
      (List.pairwise_cons.mp hstrict).1 b (List.mem_cons_self b rest)
    have ha : a ∈ candidates dat r := hperm.mem_iff.mp (List.mem_cons_self a _)
    have hb : b ∈ candidates dat r :=
      hperm.mem_iff.mp (List.mem_cons_of_mem a (List.mem_cons_self b rest))
    refine ⟨b, a, hb, ha, hba, ?_, ?_⟩
    · intro w hw hwb hwa
      rcases List.mem_cons.mp (hperm.mem_iff.mpr hw) with rfl | hw2
      · exact absurd rfl hwa
      · rcases List.mem_cons.mp hw2 with rfl | hw3
        · exact absurd rfl hwb
        · exact (List.pairwise_cons.mp (List.pairwise_cons.mp hstrict).2).1 w hw3
    · have htake : (sortDescBy (fun w : Word => w.left) (candidates dat r)).take 2
          = [a, b] := by
        rw [hs]
        rfl
      have hasc : sortAscBy (fun w : Word => w.left) [a, b] = [b, a] := by
        simp only [sortAscBy, insertAscBy]
        rw [if_neg (not_le.mpr hba)]
      unfold extract_stat_linesearch
      rw [hm]
      simp only [exceptMap_ok]
      rw [htake, hasc]
      rfl

/-- C4 witness: C4_thm applied to a matched line with three aligned numeric
words at pairwise distinct horizontal positions. -/
theorem C4_witness :
    ∃ w1 w2, w1 ∈ candidates dat4 r4 ∧ w2 ∈ candidates dat4 r4 ∧ w1.left < w2.left ∧
      (∀ w ∈ candidates dat4 r4, w ≠ w1 → w ≠ w2 → w.left < w1.left) ∧
      extract_stat_linesearch dat4 "cash".toList =
        Except.ok ([w1.numerical.getD 0, w2.numerical.getD 0], [w1.conf, w2.conf]) :=
  (C4_thm dat4 "cash".toList r4 (by rfl) (by decide) (by decide)).2

/-- C5 (corrected): a row is selected by the match filter of
extract_stat_linesearch exactly when its two-line window contains the
keyphrase and the window itself, not the original line text, starts with the
first four characters of the keyphrase; a line whose own text is shorter
than four characters can therefore be selected although the line itself does
not start with those characters. -/
theorem C5_thm (dat : List Word) (kp : List Char) (ms : List MergedRow)
    (hok : linesearchMatches dat kp = Except.ok ms) (r : MergedRow) :
    r ∈ ms ↔ (r ∈ agg_two_lines dat ∧ isInfixL kp (strAgg r) = true ∧
      ∃ t, r.text_agg = some t ∧ (kp.take 4).isPrefixOf t = true) := by
  unfold linesearchMatches at hok
  by_cases hany : ((agg_two_lines dat).filter (fun r => isInfixL kp (strAgg r))).any
      (fun r => r.text_agg.isNone) = true
  · rw [if_pos hany] at hok
    exact Except.noConfusion hok
  · rw [if_neg hany] at hok
    have hmsEq : ((agg_two_lines dat).filter (fun r => isInfixL kp (strAgg r))).filter
        (fun r => (kp.take 4).isPrefixOf (strAgg r)) = ms := Except.ok.inj hok
    subst hmsEq
    constructor
    · intro hr
      rcases List.mem_filter.mp hr with ⟨hr1, hpre⟩
      rcases List.mem_filter.mp hr1 with ⟨hmem, hinf⟩
      have hnone : ¬ (r.text_agg.isNone = true) :=
        List.any_eq_false.mp (Bool.eq_false_iff.mpr hany) r hr1
      cases hta : r.text_agg with
      | none =>
        rw [hta] at hnone
        simp at hnone
      | some t =>
        refine ⟨hmem, hinf, t, rfl, ?_⟩
        rw [← strAgg_some hta]
        exact hpre
    · rintro ⟨hmem, hinf, t, hta, hpre⟩
      refine List.mem_filter.mpr ⟨List.mem_filter.mpr ⟨hmem, hinf⟩, ?_⟩
      rw [strAgg_some hta]
      exact hpre

/-- C5 counterexample: with keyphrase due from, the line whose whole text is
due is selected - its window due from customers contains the keyphrase and
starts with its first four characters - even though the line text due does
not start with the four characters due-space, which the claim requires of
every selected line. -/
theorem C5_counterexample :
    linesearchMatches dat5 "due from".toList = Except.ok [r5] ∧
    (agg_level dat5).map (fun p => p.2) = ["due".toList, "from customers".toList] ∧
    (("due from".toList.take 4).isPrefixOf "due".toList) = false := by
  refine ⟨rfl, rfl, rfl⟩

/-- C5 witness: C5_thm applied to the short-line example, characterizing its
selected row. -/
theorem C5_witness :
    r5 ∈ [r5] ↔ (r5 ∈ agg_two_lines dat5 ∧
      isInfixL "due from".toList (strAgg r5) = true ∧
      ∃ t, r5.text_agg = some t ∧ ("due from".toList.take 4).isPrefixOf t = true) :=
  C5_thm dat5 "due from".toList [r5] (by rfl) r5

end XbrlImg
